import Mathlib

/-!
# OptiClimate classification core — verification development

Shallow embedding of the OptiClimate classification engine and streak
aggregation, translated from the Python sources:

* `opticlimate/evaluate/thresholds.py`   (threshold evaluation)
* `opticlimate/temporal/operational_window.py` (operational window mask)
* `opticlimate/classify/classify.py`     (per-scenario classification)
* `opticlimate/report/aggregate_streaks.py` (streak aggregation)
* `opticlimate/config/schema.py`         (policy constants)

Modelling conventions:

* pandas `DataFrame` columns become Lean lists aligned by index; vectorized
  pandas expressions become pointwise list operations.
* Python floats become rationals `ℚ`; a missing / `NaN` cell becomes
  `Option ℚ` with `none`, and a pandas comparison against `NaN` yields
  `false`, which the comparison helpers reproduce.
* Timestamps (`time_utc`) become rationals measured in hours, so a pandas
  `diff().dt.total_seconds()/3600` is plain subtraction.
* Fallible Python code (`raise`) becomes `Except String`.
-/

namespace OptiClimate

/-! ## Python value model for threshold configuration

`weather_thresholds` reaches the evaluator as an arbitrary nested Python
value; `_bounds_for` guards each level with `isinstance(..., dict)` checks.
`PyVal` models the shapes that can occur there. -/

/-- A Python value as seen by `_bounds_for`: a dict, a number (int/float),
a string, or `None`.  Any non-dict, non-numeric value behaves the same way
in the source (it fails the `isinstance` guards), so one `str` constructor
stands in for all of them. -/
inductive PyVal where
  | dict : List (String × PyVal) → PyVal
  | num : ℚ → PyVal
  | str : String → PyVal
  | null : PyVal

/-- Python `dict.get(key)`: first binding of the key, if any. -/
def pyLookup : List (String × PyVal) → String → Option PyVal
  | [], _ => none
  | (k, v) :: rest, key => if k = key then some v else pyLookup rest key

/-- Python `float(x) if isinstance(x, (int, float)) else None`. -/
def pyNum? : PyVal → Option ℚ
  | .num q => some q
  | _ => none

/-- `_bounds_for` from `opticlimate/evaluate/thresholds.py`: return the
`(min, max)` bounds for a `(scenario, param)` pair from scenario-first
thresholds, with every non-dict level silently yielding `(None, None)`. -/
def _bounds_for (weather_thresholds : PyVal) (param scenario : String) :
    Option ℚ × Option ℚ :=
  match weather_thresholds with
  | .dict wt =>
    let per_scen := (pyLookup wt scenario).getD (.dict [])
    match per_scen with
    | .dict ps =>
      let bounds := (pyLookup ps param).getD (.dict [])
      match bounds with
      | .dict bs =>
        let mn := (pyLookup bs "min").getD .null
        let mx := (pyLookup bs "max").getD .null
        (pyNum? mn, pyNum? mx)
      | _ => (none, none)
    | _ => (none, none)
  | _ => (none, none)

/-! ## Threshold evaluation (`evaluate_thresholds`) -/

/-- pandas `series >= bound` where the cell may be `NaN`: a missing value
never satisfies an active constraint. -/
def cmpGe (v : Option ℚ) (m : ℚ) : Bool :=
  match v with
  | none => false
  | some x => decide (m ≤ x)

/-- pandas `series <= bound` where the cell may be `NaN`. -/
def cmpLe (v : Option ℚ) (m : ℚ) : Bool :=
  match v with
  | none => false
  | some x => decide (x ≤ m)

/-- The per-cell body of the per-parameter `ok` mask: start from `True`,
then AND in `value >= min` when `min` is set and `value <= max` when `max`
is set. -/
def passOne (mn mx : Option ℚ) (v : Option ℚ) : Bool :=
  let ok := true
  let ok := match mn with
    | none => ok
    | some m => ok && cmpGe v m
  let ok := match mx with
    | none => ok
    | some m => ok && cmpLe v m
  ok

/-- The per-parameter `ok` column of `evaluate_thresholds` (the vectorized
mask applies `passOne` cellwise). -/
def paramOkCol (col : List (Option ℚ)) (mn mx : Option ℚ) : List Bool :=
  col.map (passOne mn mx)

/-- The value table handed to `evaluate_thresholds`: the boolean
`is_operational` column plus the named value columns, aligned by row index.
The source's check that the operational column exists always succeeds here
because the column is a typed field. -/
structure EvalFrame where
  is_operational : List Bool
  params : List (String × List (Option ℚ))

/-- Assoc-list lookup of a named column (`p in df.columns` / `df[p]`). -/
def lookupCol {α : Type} : List (String × α) → String → Option α
  | [], _ => none
  | (k, v) :: rest, key => if k = key then some v else lookupCol rest key

/-- Build the per-parameter `ok` masks in `required_parameters` order,
failing on the first parameter whose column is missing. -/
def buildParamOk (df : EvalFrame) (weather_thresholds : PyVal)
    (scenario : String) : List String → Except String (List (String × List Bool))
  | [] => .ok []
  | p :: rest =>
    match lookupCol df.params p with
    | none => .error ("DataFrame missing required weather parameter column " ++ p)
    | some col =>
      let b := _bounds_for weather_thresholds p scenario
      match buildParamOk df weather_thresholds scenario rest with
      | .error e => .error e
      | .ok tail => .ok ((p, paramOkCol col b.1 b.2) :: tail)

/-- Rowwise conjunction of all per-parameter `ok` columns
(`pd.concat(param_ok.values(), axis=1).all(axis=1)`); with no parameters
this is the all-`True` series of the source's `else` branch. -/
def allOkCol (pok : List (String × List Bool)) (n : Nat) : List Bool :=
  pok.foldl (fun acc pc => List.zipWith and acc pc.2) (List.replicate n true)

/-- Whether parameter `p` fails (`~param_ok[p]`) at row `i`; rows beyond a
column's length never fail, matching index alignment in pandas. -/
def failB (pok : List (String × List Bool)) (i : Nat) (p : String) : Bool :=
  !(((lookupCol pok p).getD []).getD i true)

/-- One row of the limiting-parameter loop of `evaluate_thresholds`:
walk `required_parameters` in order carrying `(any_fail, limiting)`; a
parameter is recorded where `any_fail` holds and it fails, after which
`any_fail` is cleared so that later parameters cannot overwrite it. -/
def limitingRow (required : List String) (fails : String → Bool) : Option String :=
  (required.foldl
    (fun st p =>
      let lim := if st.1 && fails p then some p else st.2
      (st.1 && lim.isNone, lim))
    (required.any fails, (none : Option String))).2

/-- `ScenarioEvaluation` from `opticlimate/evaluate/thresholds.py`. -/
structure ScenarioEvaluation where
  scenario : String
  is_workable : List Bool
  param_ok : List (String × List Bool)
  limiting_param : Option (List (Option String))
deriving Repr, DecidableEq

/-- `EvaluationSummary` from `opticlimate/evaluate/thresholds.py`. -/
structure EvaluationSummary where
  total_hours : Nat
  operational_hours : Nat
  workable_hours : Nat
  workable_pct_of_operational : ℚ
  workable_pct_of_total : ℚ
deriving Repr, DecidableEq

/-- `evaluate_thresholds` from `opticlimate/evaluate/thresholds.py`:
per-parameter min/max masks, rowwise all-parameters-ok, workability
(`operational AND all ok`), and the first-failing-parameter attribution. -/
def evaluate_thresholds (df : EvalFrame) (required_parameters : List String)
    (weather_thresholds : PyVal) (scenario : String) :
    Except String (ScenarioEvaluation × EvaluationSummary) :=
  let op := df.is_operational
  let total_hours := op.length
  let operational_hours := op.count true
  match buildParamOk df weather_thresholds scenario required_parameters with
  | .error e => .error e
  | .ok param_ok =>
    let all_ok := allOkCol param_ok op.length
    let is_workable := List.zipWith and op all_ok
    let limiting : Option (List (Option String)) :=
      if param_ok.isEmpty then none
      else some ((List.range op.length).map
        (fun i => limitingRow required_parameters (failB param_ok i)))
    let workable_hours := is_workable.count true
    let workable_pct_of_operational : ℚ :=
      if operational_hours = 0 then 0
      else (workable_hours : ℚ) / (operational_hours : ℚ) * 100
    let workable_pct_of_total : ℚ :=
      if total_hours = 0 then 0
      else (workable_hours : ℚ) / (total_hours : ℚ) * 100
    .ok
      ({ scenario := scenario
         is_workable := is_workable
         param_ok := param_ok
         limiting_param := limiting },
       { total_hours := total_hours
         operational_hours := operational_hours
         workable_hours := workable_hours
         workable_pct_of_operational := workable_pct_of_operational
         workable_pct_of_total := workable_pct_of_total })

/-! ## Operational window (`build_operational_mask_fixed_time`)

From `opticlimate/temporal/operational_window.py`.  A timezone-aware local
timestamp is modelled by the fields the mask reads: `dt.weekday`
(0=Monday..6=Sunday), `dt.hour` and `dt.minute`.  The source's checks that
the time column exists and is timezone-aware always succeed here because
the rows are typed.  `"HH:MM"` strings are modelled as `HHMM` pairs, with
`_parse_hhmm` projecting the two components. -/

/-- The hour/minute pair carried by an `"HH:MM"` clock-time string. -/
structure HHMM where
  hh : Nat
  mm : Nat
deriving Repr, DecidableEq

/-- `_parse_hhmm`: split an `"HH:MM"` string into hours and minutes. -/
def _parse_hhmm (s : HHMM) : Nat × Nat := (s.hh, s.mm)

/-- The calendar-relevant view of one timezone-aware local timestamp. -/
structure LocalTime where
  weekday : Nat
  hour : Nat
  minute : Nat
deriving Repr, DecidableEq

/-- The `time_bounds` dict of an operational-window config; absent keys are
`none` (Python `dict.get`). -/
structure TimeBounds where
  start : Option String := none
  stop : Option String := none
  start_time : Option HHMM := none
  end_time : Option HHMM := none
deriving Repr, DecidableEq

/-- One `weekly_overrides` entry; absent keys are `none`. -/
structure WeeklyOverride where
  start : Option String := none
  stop : Option String := none
  start_time : Option HHMM := none
  end_time : Option HHMM := none
deriving Repr, DecidableEq

/-- The `operational_window` config dict as read by the mask builder.
`weekly_overrides` keeps dict insertion order; its keys are already the
`int(day_key)` conversions of the source. -/
structure OperationalWindow where
  calendar_model : Option String := none
  weekdays : List Int := []
  time_bounds : Option TimeBounds := none
  weekly_overrides : List (Int × WeeklyOverride) := []
deriving Repr, DecidableEq

/-- `ALLOWED_CALENDAR_MODELS` from `opticlimate/config/schema.py`. -/
def ALLOWED_CALENDAR_MODELS : List String := ["all_days", "mon_fri", "custom"]

/-- `_weekdays_set` from `opticlimate/temporal/operational_window.py`: for
`calendar_model == "custom"` the explicitly listed weekdays, otherwise all
seven weekdays. -/
def _weekdays_set (ow : OperationalWindow) : List Int :=
  if ow.calendar_model = some "custom" then ow.weekdays
  else (List.range 7).map Int.ofNat

/-- Sequential application of one weekly override to the mask:
`mask.loc[is_day] = weekday_ok.loc[is_day] & o_time_ok.loc[is_day]`,
pointwise over the aligned rows / weekday-ok / minutes / mask columns. -/
def overrideMask (d : Int) (ostart_min oend_min : Nat) :
    List LocalTime → List Bool → List Nat → List Bool → List Bool
  | r :: rs, wok :: woks, m :: ms, old :: olds =>
    (if Int.ofNat r.weekday = d
      then wok && (decide (ostart_min ≤ m) && decide (m < oend_min))
      else old)
      :: overrideMask d ostart_min oend_min rs woks ms olds
  | _, _, _, _ => []

/-- The `for day_key, override in weekly.items()` loop of
`build_operational_mask_fixed_time`: validate each override and rewrite the
mask rows of its weekday. -/
def applyOverrides (rows : List LocalTime) (weekday_ok : List Bool)
    (minutes : List Nat) (tb : TimeBounds) (start_time end_time : HHMM) :
    List (Int × WeeklyOverride) → List Bool → Except String (List Bool)
  | [], mask => .ok mask
  | (day_key, override) :: rest, mask =>
    if day_key < 0 ∨ 6 < day_key then
      .error "weekly_overrides keys must be 0..6"
    else
      let os := override.start <|> tb.start
      let oe := override.stop <|> tb.stop
      if os ≠ some "fixed_time" ∨ oe ≠ some "fixed_time" then
        .error "weekly_overrides supports only fixed_time -> fixed_time in this phase"
      else
        let ost := override.start_time.getD start_time
        let oet := override.end_time.getD end_time
        let osp := _parse_hhmm ost
        let oep := _parse_hhmm oet
        let ostart_min := osp.1 * 60 + osp.2
        let oend_min := oep.1 * 60 + oep.2
        if oend_min ≤ ostart_min then
          .error "weekly_overrides end_time must be after start_time"
        else
          applyOverrides rows weekday_ok minutes tb start_time end_time rest
            (overrideMask day_key ostart_min oend_min rows weekday_ok minutes mask)

/-- `build_operational_mask_fixed_time` from
`opticlimate/temporal/operational_window.py`: boolean mask aligned to the
rows plus the `reason` string of `OperationalMaskResult`. -/
def build_operational_mask_fixed_time (rows : List LocalTime)
    (ow : OperationalWindow) : Except String (List Bool × String) :=
  let tb := ow.time_bounds.getD {}
  if tb.start ≠ some "fixed_time" ∨ tb.stop ≠ some "fixed_time" then
    .error "This phase supports only fixed_time -> fixed_time time_bounds for operational masking"
  else
    match tb.start_time, tb.end_time with
    | some start_time, some end_time =>
      let sp := _parse_hhmm start_time
      let ep := _parse_hhmm end_time
      let allowed_weekdays := _weekdays_set ow
      let weekday_ok := rows.map (fun r => allowed_weekdays.contains (Int.ofNat r.weekday))
      let minutes := rows.map (fun r => r.hour * 60 + r.minute)
      let start_min := sp.1 * 60 + sp.2
      let end_min := ep.1 * 60 + ep.2
      if end_min ≤ start_min then
        .error "fixed_time window must have end_time after start_time (same-day window)"
      else
        let time_ok := minutes.map (fun m => decide (start_min ≤ m) && decide (m < end_min))
        let base_mask := List.zipWith and weekday_ok time_ok
        if ow.weekly_overrides.isEmpty then
          .ok (base_mask, "fixed_time")
        else
          match applyOverrides rows weekday_ok minutes tb start_time end_time
              ow.weekly_overrides base_mask with
          | .error e => .error e
          | .ok mask => .ok (mask, "fixed_time_with_overrides")
    | _, _ => .error "fixed_time -> fixed_time requires start_time and end_time"

/-! ## Classification (`classify_baseline`)

From `opticlimate/classify/classify.py`.  The raw truth table keeps its
column-name list (for the `time_local`/`time_utc` presence checks) and one
record per row; weather cells are numeric-or-null values keyed by column
name. -/

/-- One raw hourly record: the two time columns plus the weather cells. -/
structure TruthRow where
  time_utc : ℚ
  time_local : LocalTime
  cells : List (String × Option ℚ)

/-- The raw hourly truth table. -/
structure TruthTable where
  columns : List String
  rows : List TruthRow

/-- The resolved configuration fields `classify_baseline` reads. -/
structure Config where
  operational_window : OperationalWindow
  required_parameters : List String
  weather_thresholds : PyVal

/-- `LIMITING_PARAM_UNKNOWN` from `opticlimate/classify/classify.py`. -/
def LIMITING_PARAM_UNKNOWN : String := "unknown"

/-- One classified output row (the flag/attribution columns the classifier
adds; the untouched input columns are omitted). -/
structure ClassifiedRow where
  scenario_id : String
  operational_flag : Bool
  workable_flag : Bool
  loss_flag : Bool
  limiting_param : Option String
deriving Repr, DecidableEq

/-- `ClassificationResult` from `opticlimate/classify/classify.py`
(with the evaluation summary flattened to its threshold part). -/
structure ClassificationResult where
  scenario_id : String
  classified : List ClassifiedRow
  operational_window_reason : String
  threshold_summary : EvaluationSummary
deriving Repr, DecidableEq

/-- A named value column of the truth table, as `evaluate_thresholds` will
see it after `classify_baseline` renames `operational_flag`; cells missing
from a row read as null. -/
def colOf (t : TruthTable) (c : String) : List (Option ℚ) :=
  t.rows.map (fun r => (lookupCol r.cells c).getD none)

/-- The frame handed to `evaluate_thresholds`: the mask as the
`is_operational` column plus every named truth column. -/
def toEvalFrame (t : TruthTable) (op : List Bool) : EvalFrame :=
  { is_operational := op
    params := t.columns.map (fun c => (c, colOf t c)) }

/-- The two final `limiting_param` rewrites of `classify_baseline`:
`limiting.where(loss_flag, None)` nulls the attribution outside loss hours,
then `limiting.mask(loss_flag & limiting.isna(), "unknown")` fills
unattributed loss hours with the sentinel. -/
def classifyLimitingFinal (loss : List Bool) (limiting : List (Option String)) :
    List (Option String) :=
  List.zipWith
    (fun l lim => if l then some (lim.getD LIMITING_PARAM_UNKNOWN) else none)
    loss limiting

/-- `classify_baseline` from `opticlimate/classify/classify.py`: build the
operational mask, evaluate the scenario's thresholds, re-derive the flag
invariants, and null/fill the limiting attribution. -/
def classify_baseline (truth : TruthTable) (cfg : Config)
    (scenario_id : String) : Except String ClassificationResult :=
  if ¬ truth.columns.contains "time_local" then
    .error "truth_df missing required time_local column"
  else if ¬ truth.columns.contains "time_utc" then
    .error "truth_df missing required time_utc column"
  else
    match build_operational_mask_fixed_time (truth.rows.map (·.time_local))
        cfg.operational_window with
    | .error e => .error e
    | .ok (op, reason) =>
      match evaluate_thresholds (toEvalFrame truth op) cfg.required_parameters
          cfg.weather_thresholds scenario_id with
      | .error e => .error e
      | .ok (ev, summary) =>
        let workable := List.zipWith and ev.is_workable op
        let loss := List.zipWith (fun o w => o && !w) op workable
        let limiting := match ev.limiting_param with
          | none => List.replicate op.length (none : Option String)
          | some l => l
        let limFinal := classifyLimitingFinal loss limiting
        let n := truth.rows.length
        .ok
          { scenario_id := scenario_id
            classified := (List.range n).map (fun i =>
              { scenario_id := scenario_id
                operational_flag := op.getD i false
                workable_flag := workable.getD i false
                loss_flag := loss.getD i false
                limiting_param := limFinal.getD i none })
            operational_window_reason := reason
            threshold_summary := summary }

/-! ## Streak aggregation (`aggregate_streaks_operational`)

From `opticlimate/report/aggregate_streaks.py`.  The classified table
arrives with a column-name list (for the hard-error column checks) and one
record per row holding the four columns the aggregator reads.  Timestamps
are rationals in hours, so `diff().dt.total_seconds()/3600` is plain
subtraction. -/

/-- One row of the classified multi-scenario table, as read by the streak
aggregator. -/
structure StreakRow where
  time_utc : ℚ
  scenario_id : String
  operational_flag : Bool
  workable_flag : Bool
deriving Repr, DecidableEq

/-- The classified table handed to `aggregate_streaks_operational`. -/
structure ClassifiedTable where
  columns : List String
  rows : List StreakRow

/-- Python's lexicographic `<` on strings, by Unicode code point
(`String.lt` semantics), as an executable comparison on the character
lists. -/
def charListLt : List Char → List Char → Bool
  | _, [] => false
  | [], _ :: _ => true
  | a :: as, b :: bs => a < b || (a == b && charListLt as bs)

/-- `s < t` for strings. -/
def strLtB (s t : String) : Bool := charListLt s.data t.data

/-- `s ≤ t` for strings (total order: not `t < s`). -/
def strLeB (s t : String) : Bool := !(strLtB t s)

/-- `df.sort_values([scenario_col, time_utc_col])`: lexicographic
(scenario, timestamp) order on rows. -/
def rowLeB (a b : StreakRow) : Bool :=
  strLtB a.scenario_id b.scenario_id ||
    (a.scenario_id == b.scenario_id && decide (a.time_utc ≤ b.time_utc))

/-- Successive differences of a series (`ts.diff().dropna()`). -/
def diffsOf : List ℚ → List ℚ
  | a :: b :: rest => (b - a) :: diffsOf (b :: rest)
  | _ => []

/-- pandas `Series.median()`: middle element of the sorted values, or the
mean of the two middle elements; `none` on an empty series. -/
def medianQ (l : List ℚ) : Option ℚ :=
  let s := List.insertionSort (fun a b : ℚ => a ≤ b) l
  let n := s.length
  if n = 0 then none
  else if n % 2 = 1 then some (s.getD (n / 2) 0)
  else some ((s.getD (n / 2 - 1) 0 + s.getD (n / 2) 0) / 2)

/-- `_infer_timestep_hours` from `opticlimate/report/aggregate_streaks.py`:
deduplicate and sort the timestamps, diff, and take the median difference
in hours; default to `1.0` when no differences exist or the median is
undefined or non-positive.  (`dropna` is the identity here because the
modelled time column is total.) -/
def _infer_timestep_hours (ts : List ℚ) : ℚ :=
  let ts2 := List.insertionSort (fun a b : ℚ => a ≤ b) ts.eraseDups
  let diffs := diffsOf ts2
  if diffs.isEmpty then 1
  else
    match medianQ diffs with
    | none => 1
    | some step => if step ≤ 0 then 1 else step

/-- The streak-boundary flags for the rows after the first one:
`value_flip OR scen_flip OR gap_break`, where `gap_break` compares the
within-scenario time gap against `1.5 *` the nominal step (the
`groupby(scenario).diff()` of the source is the adjacent difference here
because the rows are sorted by scenario first, and it is `NaN`—hence
`False` after `fillna`—when the scenario changes). -/
def boundaryFlag (step : ℚ) (prev r : StreakRow) : Bool :=
  (r.workable_flag != prev.workable_flag) ||
    (r.scenario_id != prev.scenario_id) ||
    ((r.scenario_id == prev.scenario_id) &&
      decide (r.time_utc - prev.time_utc > 3 / 2 * step))

/-- The boundary flags of all rows after the first, each compared with its
predecessor. -/
def boundariesAux (step : ℚ) : StreakRow → List StreakRow → List Bool
  | _, [] => []
  | prev, r :: rest => boundaryFlag step prev r :: boundariesAux step r rest

/-- All streak-boundary flags; the first row is a boundary because both
`shift()` comparisons see `NaN` there and compare unequal. -/
def boundaries (step : ℚ) : List StreakRow → List Bool
  | [] => []
  | r :: rest => true :: boundariesAux step r rest

/-- `boundary.cumsum()`: the running count of boundaries, i.e. the streak
id of each row. -/
def cumsumBool : List Bool → Nat → List Nat
  | [], _ => []
  | b :: bs, acc =>
    let acc2 := acc + (if b then 1 else 0)
    acc2 :: cumsumBool bs acc2

/-- Split rows into maximal runs of equal streak id.  Because a scenario
change always raises a boundary, grouping by the id alone coincides with
the source's `groupby([scenario_col, "_streak_id"])`. -/
def splitRunsAux (key : Nat) (cur : List (StreakRow × Nat)) :
    List (StreakRow × Nat) → List (List (StreakRow × Nat))
  | [] => [cur.reverse]
  | x :: xs =>
    if x.2 = key then splitRunsAux key (x :: cur) xs
    else cur.reverse :: splitRunsAux x.2 [x] xs

/-- Split a row/id list into its runs of equal id. -/
def splitRuns : List (StreakRow × Nat) → List (List (StreakRow × Nat))
  | [] => []
  | x :: xs => splitRunsAux x.2 [x] xs

/-- One streak as aggregated by `_compute_streaks` (the `n_steps` helper
column is already folded into `duration_hours` and dropped). -/
structure Streak where
  scenario_id : String
  streak_id : Nat
  start_ts : ℚ
  end_ts : ℚ
  value : Bool
  duration_hours : ℚ
deriving Repr, DecidableEq

/-- The groupby aggregation of one run: first/last timestamp, first value,
and `duration_hours = n_steps * timestep`. -/
def aggGroup (step : ℚ) : List (StreakRow × Nat) → Option Streak
  | [] => none
  | (r, i) :: rest =>
    some
      { scenario_id := r.scenario_id
        streak_id := i
        start_ts := r.time_utc
        end_ts := (rest.getLastD (r, i)).1.time_utc
        value := r.workable_flag
        duration_hours := ((rest.length + 1 : Nat) : ℚ) * step }

/-- `_compute_streaks` from `opticlimate/report/aggregate_streaks.py`:
sort by (scenario, timestamp), infer the timestep, flag boundaries,
accumulate streak ids, and aggregate each run. -/
def _compute_streaks (rows : List StreakRow) : List Streak :=
  let sorted := List.insertionSort (fun a b : StreakRow => rowLeB a b = true) rows
  let timestep_hours := _infer_timestep_hours (sorted.map (·.time_utc))
  let ids := cumsumBool (boundaries timestep_hours sorted) 0
  (splitRuns (sorted.zip ids)).filterMap (aggGroup timestep_hours)

/-- A row of the blocked / workable streak tables (the `value` column is
dropped on output). -/
structure StreakOut where
  scenario_id : String
  streak_id : Nat
  start_ts : ℚ
  end_ts : ℚ
  duration_hours : ℚ
deriving Repr, DecidableEq

/-- Drop the `value` column of a streak. -/
def dropValue (s : Streak) : StreakOut :=
  { scenario_id := s.scenario_id
    streak_id := s.streak_id
    start_ts := s.start_ts
    end_ts := s.end_ts
    duration_hours := s.duration_hours }

/-- pandas `Series.max()` of a non-empty series. -/
def maxQ : List ℚ → ℚ
  | [] => 0
  | x :: xs => xs.foldl max x

/-- pandas `Series.quantile(q)` with the default linear interpolation. -/
def quantileQ (q : ℚ) (l : List ℚ) : ℚ :=
  match List.insertionSort (fun a b : ℚ => a ≤ b) l with
  | [] => 0
  | s@(_ :: _) =>
    let n := s.length
    let pos := q * ((n : ℚ) - 1)
    let lo := Int.toNat ⌊pos⌋
    let hi := Int.toNat ⌈pos⌉
    let vlo := s.getD lo 0
    let vhi := s.getD hi 0
    vlo + (pos - (lo : ℚ)) * (vhi - vlo)

/-- One row of `streaks_summary_operational`. -/
structure StreakSummaryRow where
  scenario_id : String
  n_blocked_streaks : Nat
  longest_blocked_hours : ℚ
  p50_blocked_hours : ℚ
  p90_blocked_hours : ℚ
  count_blocked_ge_6h : Nat
  count_blocked_ge_12h : Nat
  count_blocked_ge_24h : Nat
  n_workable_streaks : Nat
  longest_workable_hours : ℚ
  p50_workable_hours : ℚ
  p90_workable_hours : ℚ
deriving Repr, DecidableEq

/-- The per-scenario summary row: skipped (`continue`) when the scenario
has no blocked streak; the workable statistics are zero-filled when the
scenario has no workable streak. -/
def scenSummaryRow (blocked workable : List StreakOut) (scen : String) :
    Option StreakSummaryRow :=
  let g := blocked.filter (fun s => s.scenario_id == scen)
  if g.isEmpty then none
  else
    let d := g.map (·.duration_hours)
    let w := workable.filter (fun s => s.scenario_id == scen)
    let wd := w.map (·.duration_hours)
    some
      { scenario_id := scen
        n_blocked_streaks := g.length
        longest_blocked_hours := maxQ d
        p50_blocked_hours := quantileQ (1 / 2) d
        p90_blocked_hours := quantileQ (9 / 10) d
        count_blocked_ge_6h := (d.filter (fun x => decide (6 ≤ x))).length
        count_blocked_ge_12h := (d.filter (fun x => decide (12 ≤ x))).length
        count_blocked_ge_24h := (d.filter (fun x => decide (24 ≤ x))).length
        n_workable_streaks := w.length
        longest_workable_hours := if w.isEmpty then 0 else maxQ wd
        p50_workable_hours := if w.isEmpty then 0 else quantileQ (1 / 2) wd
        p90_workable_hours := if w.isEmpty then 0 else quantileQ (9 / 10) wd }

/-- `sorted(df[scenario_col].unique())`: distinct scenario ids in
ascending string order. -/
def sortedUniqueScens (rows : List StreakRow) : List String :=
  List.insertionSort (fun a b : String => strLeB a b = true)
    (rows.map (·.scenario_id)).eraseDups

/-- The three result tables of `aggregate_streaks_operational`. -/
structure StreaksOutput where
  streaks_nonworkable_operational : List StreakOut
  streaks_workable_operational : List StreakOut
  streaks_summary_operational : List StreakSummaryRow
deriving Repr, DecidableEq

/-- `aggregate_streaks_operational` from
`opticlimate/report/aggregate_streaks.py`: filter to operational rows
(erroring if the operational column is missing), return three empty tables
when nothing is operational, check the remaining required columns, fall
back to a `"baseline"` scenario column, and compute the blocked/workable
streak tables and the per-scenario summary. -/
def aggregate_streaks_operational (t : ClassifiedTable) :
    Except String StreaksOutput :=
  if ¬ t.columns.contains "operational_flag" then
    .error "Expected column operational_flag in classified_df"
  else
    let df := t.rows.filter (·.operational_flag)
    if df.isEmpty then
      .ok
        { streaks_nonworkable_operational := []
          streaks_workable_operational := []
          streaks_summary_operational := [] }
    else if ¬ t.columns.contains "time_utc" then
      .error "Expected column time_utc in classified_df"
    else if ¬ t.columns.contains "workable_flag" then
      .error "Expected column workable_flag in classified_df"
    else
      let df := if t.columns.contains "scenario_id" then df
        else df.map (fun r => { r with scenario_id := "baseline" })
      let all_streaks := _compute_streaks df
      let blocked := (all_streaks.filter (fun s => s.value == false)).map dropValue
      let workable := (all_streaks.filter (fun s => s.value == true)).map dropValue
      let summary := (sortedUniqueScens df).filterMap (scenSummaryRow blocked workable)
      .ok
        { streaks_nonworkable_operational := blocked
          streaks_workable_operational := workable
          streaks_summary_operational := summary }

/-! ## Spec-side definitions

Definitions written from the specification's words, to be compared with
the code-derived definitions above (refinement claims). -/

/-- Spec-side per-parameter pass rule:
`pass = (min is unset OR value >= min) AND (max is unset OR value <= max)`,
bounds inclusive on both ends; a null value fails an active bound on either
side; a parameter with no configured bounds passes on every row. -/
def specParamPass (mn mx : Option ℚ) (v : Option ℚ) : Bool :=
  (match mn with
   | none => true
   | some m =>
     match v with
     | none => false
     | some x => decide (m ≤ x)) &&
  (match mx with
   | none => true
   | some m =>
     match v with
     | none => false
     | some x => decide (x ≤ m))

/-- Spec-side nominal timestep: the median, in hours, of the successive
differences of the deduplicated, sorted distinct timestamps, defaulting to
`1.0` when the median is undefined (at most one distinct timestamp) or
non-positive. -/
def specNominalTimestep (ts : List ℚ) : ℚ :=
  match medianQ (diffsOf (List.insertionSort (fun a b : ℚ => a ≤ b) ts.eraseDups)) with
  | none => 1
  | some m => if m ≤ 0 then 1 else m

/-- "Bounds at least as permissive": the looser scenario's min is no larger
or unset, and its max is no smaller or unset. -/
def boundsLooser (loose strict : Option ℚ × Option ℚ) : Prop :=
  (loose.1 = none ∨ ∃ a b, loose.1 = some a ∧ strict.1 = some b ∧ a ≤ b) ∧
  (loose.2 = none ∨ ∃ a b, loose.2 = some a ∧ strict.2 = some b ∧ b ≤ a)

/-- A weekly override whose resolved window — its own start/end clock
times, defaulting to the base window's — ends at or before it starts. -/
def overrideWindowBad (start_time end_time : HHMM) (item : Int × WeeklyOverride) : Prop :=
  let ost := item.2.start_time.getD start_time
  let oet := item.2.end_time.getD end_time
  oet.hh * 60 + oet.mm ≤ ost.hh * 60 + ost.mm

end OptiClimate

deriving instance DecidableEq for Except

namespace OptiClimate

/-! ## Generic helper lemmas -/

theorem getD_zipWith_and_true {a b : List Bool} {i : Nat}
    (h : (List.zipWith and a b).getD i false = true) :
    a.getD i false = true ∧ b.getD i false = true := by
  rw [List.getD_eq_getElem?_getD, List.getElem?_zipWith'] at h
  rw [List.getD_eq_getElem?_getD, List.getD_eq_getElem?_getD]
  cases ha : a[i]? with
  | none => rw [ha] at h; simp at h
  | some x =>
    cases hb : b[i]? with
    | none => rw [ha, hb] at h; simp at h
    | some y =>
      rw [ha, hb] at h
      simp only [Option.map_some', Option.some_bind, Option.getD_some] at h
      simp only [Option.getD_some]
      cases x <;> cases y <;> simp_all

theorem getD_zipWith_lt {α β γ : Type} (f : α → β → γ) {a : List α} {b : List β}
    {i : Nat} (ha : i < a.length) (hb : i < b.length) (d : γ) (da : α) (db : β) :
    (List.zipWith f a b).getD i d = f (a.getD i da) (b.getD i db) := by
  rw [List.getD_eq_getElem?_getD, List.getElem?_zipWith',
    List.getElem?_eq_getElem ha, List.getElem?_eq_getElem hb,
    List.getD_eq_getElem?_getD, List.getD_eq_getElem?_getD,
    List.getElem?_eq_getElem ha, List.getElem?_eq_getElem hb]
  simp

theorem getD_map_range {α : Type} (f : Nat → α) {n i : Nat} (h : i < n) (d : α) :
    ((List.range n).map f).getD i d = f i := by
  rw [List.getD_eq_getElem?_getD, List.getElem?_map, List.getElem?_range h]
  rfl

theorem count_true_le_of_pointwise :
    ∀ (a b : List Bool), (∀ i, a.getD i false = true → b.getD i false = true) →
      a.count true ≤ b.count true := by
  intro a
  induction a with
  | nil => intro b _; simp
  | cons x xs ih =>
    intro b h
    cases b with
    | nil =>
      have hx : x = false := by
        cases hxv : x
        · rfl
        · have := h 0 (by simp [hxv])
          simp at this
      have h2 : ∀ i, xs.getD i false = true → ([] : List Bool).getD i false = true :=
        fun i hi => h (i + 1) (by simpa using hi)
      have h3 := ih [] h2
      simp only [List.count_nil, Nat.le_zero] at h3
      simp [hx, List.count_cons, h3]
    | cons y ys =>
      have htail : ∀ i, xs.getD i false = true → ys.getD i false = true := by
        intro i hi
        have := h (i + 1) (by simpa using hi)
        simpa using this
      have hcnt := ih ys htail
      rw [List.count_cons, List.count_cons]
      cases x with
      | false =>
        have e1 : (if (false == true) = true then 1 else 0) = 0 := by decide
        rw [e1]
        omega
      | true =>
        have hy : y = true := by
          have := h 0 (by simp)
          simpa using this
        subst hy
        have e2 : (if (true == true) = true then 1 else 0) = 1 := by decide
        rw [e2]
        omega

/-! ## Lemmas about the streak machinery -/

theorem boundariesAux_length (step : ℚ) :
    ∀ (prev : StreakRow) (l : List StreakRow),
      (boundariesAux step prev l).length = l.length := by
  intro prev l
  induction l generalizing prev with
  | nil => rfl
  | cons r rest ih => simp [boundariesAux, ih]

theorem boundaries_length (step : ℚ) (l : List StreakRow) :
    (boundaries step l).length = l.length := by
  cases l with
  | nil => rfl
  | cons r rest => simp [boundaries, boundariesAux_length]

theorem cumsumBool_length :
    ∀ (l : List Bool) (acc : Nat), (cumsumBool l acc).length = l.length := by
  intro l
  induction l with
  | nil => intro acc; rfl
  | cons b bs ih => intro acc; simp [cumsumBool, ih]

theorem cumsumBool_ge :
    ∀ (l : List Bool) (acc k : Nat), k < l.length →
      acc ≤ (cumsumBool l acc).getD k 0 := by
  intro l
  induction l with
  | nil => intro acc k hk; simp at hk
  | cons b bs ih =>
    intro acc k hk
    cases k with
    | zero =>
      simp only [cumsumBool, List.getD_cons_zero]
      cases b <;> simp
    | succ k2 =>
      simp only [cumsumBool, List.getD_cons_succ]
      have hk2 : k2 < bs.length := by simpa using hk
      have := ih (acc + (if b then 1 else 0)) k2 hk2
      omega

theorem cumsumBool_monotone :
    ∀ (l : List Bool) (acc i j : Nat), i ≤ j → j < l.length →
      (cumsumBool l acc).getD i 0 ≤ (cumsumBool l acc).getD j 0 := by
  intro l
  induction l with
  | nil => intro acc i j _ hj; simp at hj
  | cons b bs ih =>
    intro acc i j hij hj
    cases i with
    | zero =>
      cases j with
      | zero => exact le_refl _
      | succ j2 =>
        simp only [cumsumBool, List.getD_cons_zero, List.getD_cons_succ]
        exact cumsumBool_ge bs _ j2 (by simpa using hj)
    | succ i2 =>
      cases j with
      | zero => omega
      | succ j2 =>
        simp only [cumsumBool, List.getD_cons_succ]
        exact ih _ i2 j2 (by omega) (by simpa using hj)

/-! ## Claim theorems -/

/-- **C1.** The claim says that under the `"mon_fri"` calendar model every
Saturday or Sunday timestamp gets a `false` operational-mask entry.  The
code disagrees: `_weekdays_set` special-cases only `"custom"` and treats
every other calendar model — including the allowed `"mon_fri"` — as "all
days", so a Saturday (weekday 5) 10:00 timestamp inside a 09:00–17:00
window is marked operational (`true`). -/
theorem mon_fri_saturday_marked_operational :
    build_operational_mask_fixed_time [⟨5, 10, 0⟩]
      { calendar_model := some "mon_fri"
        time_bounds := some
          { start := some "fixed_time", stop := some "fixed_time"
            start_time := some ⟨9, 0⟩, end_time := some ⟨17, 0⟩ } }
      = .ok ([true], "fixed_time") ∧
    _weekdays_set { calendar_model := some "mon_fri" } = [0, 1, 2, 3, 4, 5, 6] ∧
    "mon_fri" ∈ ALLOWED_CALENDAR_MODELS :=
  ⟨rfl, rfl, by decide⟩

/-- **C10.** If the classified table has an `operational_flag` column but no
row with `operational_flag` true, `aggregate_streaks_operational` returns
the three result tables empty without error; the `time_utc` /
`workable_flag` column checks run only after the operational filter, so the
result does not depend on those columns being present. -/
theorem empty_operational_input_yields_empty_tables (t : ClassifiedTable)
    (hcol : t.columns.contains "operational_flag" = true)
    (hrows : ∀ r ∈ t.rows, r.operational_flag = false) :
    aggregate_streaks_operational t =
      .ok { streaks_nonworkable_operational := []
            streaks_workable_operational := []
            streaks_summary_operational := [] } := by
  have hmem : "operational_flag" ∈ t.columns := by simpa using hcol
  have hfilter : t.rows.filter (·.operational_flag) = [] := by
    rw [List.filter_eq_nil_iff]
    intro r hr
    simp [hrows r hr]
  simp [aggregate_streaks_operational, hcol, hfilter, hmem]

/-- Witness for C10: a table whose column list lacks `time_utc`,
`workable_flag` and `scenario_id`, with a single non-operational row,
yields the three empty tables. -/
theorem empty_operational_input_yields_empty_tables_witness :
    aggregate_streaks_operational
      { columns := ["operational_flag"]
        rows := [{ time_utc := 0, scenario_id := "s", operational_flag := false,
                   workable_flag := true }] } =
      .ok { streaks_nonworkable_operational := []
            streaks_workable_operational := []
            streaks_summary_operational := [] } :=
  empty_operational_input_yields_empty_tables _ (by decide)
    (by intro r hr
        simp only [List.mem_singleton] at hr
        subst hr
        rfl)

/-- **C9 (counterexample).** The claim says a non-dict threshold entry for
a parameter makes the classification core raise immediately.  It does not:
with `weather_thresholds = {"base": {"temperature": "not-a-dict"}}`,
`evaluate_thresholds` succeeds, and the parameter passes on every row —
even on a null value. -/
theorem non_dict_bounds_do_not_raise :
    ((evaluate_thresholds { is_operational := [true], params := [("temperature", [none])] }
        ["temperature"] (.dict [("base", .dict [("temperature", .str "not-a-dict")])])
        "base").isOk = true) ∧
    ((evaluate_thresholds { is_operational := [true], params := [("temperature", [none])] }
        ["temperature"] (.dict [("base", .dict [("temperature", .str "not-a-dict")])])
        "base").map (fun p => p.1.is_workable) = .ok [true]) := by
  constructor
  · with_unfolding_all decide
  · with_unfolding_all decide

/-- **C9 (amended).** When the scenario's threshold entry for a parameter
is not a dict, the classification core does not raise: `_bounds_for`
silently yields `(None, None)` and the parameter is treated as
unconstrained for the scenario (its pass column is all-`True`).  Non-dict
bound blocks are rejected by config validation, outside the classification
core. -/
theorem non_dict_bounds_treated_unconstrained (wt ps : List (String × PyVal))
    (scenario param : String) (v : PyVal)
    (hs : pyLookup wt scenario = some (.dict ps))
    (hv : pyLookup ps param = some v)
    (hnd : ∀ d, v ≠ .dict d) :
    _bounds_for (.dict wt) param scenario = (none, none) ∧
    ∀ col : List (Option ℚ), paramOkCol col none none =
      List.replicate col.length true := by
  constructor
  · cases v with
    | dict d => exact absurd rfl (hnd d)
    | num q => simp [_bounds_for, hs, hv]
    | str s => simp [_bounds_for, hs, hv]
    | null => simp [_bounds_for, hs, hv]
  · intro col
    unfold paramOkCol
    induction col with
    | nil => rfl
    | cons c cs ih => simp [passOne, ih, List.replicate]

/-- Witness for the amended C9: a concrete string bound block yields
`(None, None)` and an all-`True` pass column. -/
theorem non_dict_bounds_treated_unconstrained_witness :
    _bounds_for (.dict [("base", .dict [("temperature", .str "bad")])])
      "temperature" "base" = (none, none) ∧
    ∀ col : List (Option ℚ), paramOkCol col none none =
      List.replicate col.length true :=
  non_dict_bounds_treated_unconstrained
    [("base", .dict [("temperature", .str "bad")])]
    [("temperature", .str "bad")] "base" "temperature" (.str "bad")
    rfl rfl (fun _ h => PyVal.noConfusion h)

/-- **C5.** The nominal timestep is the median, in hours, of the successive
differences of the deduplicated sorted timestamps, defaulting to `1.0` when
at most one distinct timestamp exists or the median is non-positive or
undefined; every aggregated streak's `duration_hours` is its row count
times this step (a single-sample streak lasts one timestep); and the
two-scenario duplicate-timestamp example — timestamps `[T, T+1h]` shared by
two scenarios, all rows blocked — yields one blocked streak of duration
`2.0` hours per scenario. -/
theorem nominal_timestep_and_streak_durations :
    (∀ ts : List ℚ, _infer_timestep_hours ts = specNominalTimestep ts) ∧
    (∀ ts : List ℚ, ts.eraseDups.length ≤ 1 → _infer_timestep_hours ts = 1) ∧
    (∀ (rows : List StreakRow) (s : Streak), s ∈ _compute_streaks rows →
      ∃ k : Nat, 0 < k ∧ s.duration_hours = (k : ℚ) *
        _infer_timestep_hours
          ((List.insertionSort (fun a b : StreakRow => rowLeB a b = true) rows).map
            (fun r => r.time_utc))) ∧
    aggregate_streaks_operational
      { columns := ["time_utc", "scenario_id", "operational_flag", "workable_flag"]
        rows := [⟨16, "base", true, false⟩, ⟨17, "base", true, false⟩,
                 ⟨16, "optimistic", true, false⟩, ⟨17, "optimistic", true, false⟩] } =
      .ok { streaks_nonworkable_operational :=
              [⟨"base", 1, 16, 17, 2⟩, ⟨"optimistic", 2, 16, 17, 2⟩]
            streaks_workable_operational := []
            streaks_summary_operational :=
              [⟨"base", 1, 2, 2, 2, 0, 0, 0, 0, 0, 0, 0⟩,
               ⟨"optimistic", 1, 2, 2, 2, 0, 0, 0, 0, 0, 0, 0⟩] } := by
  refine ⟨?_, ?_, ?_, ?_⟩
  · intro ts
    unfold _infer_timestep_hours specNominalTimestep
    cases h : diffsOf (List.insertionSort (fun a b : ℚ => a ≤ b) ts.eraseDups) with
    | nil => simp [h, medianQ]
    | cons a l => simp [h]
  · intro ts h
    have hsort : (List.insertionSort (fun a b : ℚ => a ≤ b) ts.eraseDups).length ≤ 1 := by
      rw [List.length_insertionSort]
      exact h
    have hdiffs : diffsOf (List.insertionSort (fun a b : ℚ => a ≤ b) ts.eraseDups) = [] := by
      cases hl : List.insertionSort (fun a b : ℚ => a ≤ b) ts.eraseDups with
      | nil => rfl
      | cons x xs =>
        cases xs with
        | nil => rfl
        | cons y ys =>
          rw [hl] at hsort
          simp at hsort
    unfold _infer_timestep_hours
    simp [hdiffs]
  · intro rows s hs
    unfold _compute_streaks at hs
    rw [List.mem_filterMap] at hs
    obtain ⟨g, _, hagg⟩ := hs
    cases g with
    | nil => cases hagg
    | cons hd rest =>
      obtain ⟨r, i⟩ := hd
      simp only [aggGroup] at hagg
      cases Option.some.inj hagg
      exact ⟨rest.length + 1, Nat.succ_pos _, rfl⟩
  · with_unfolding_all decide

/-- Witness for C5: the default timestep on a single timestamp, the
spec-refinement at the duplicate-timestamp series, and the one-timestep
duration of a single-sample streak. -/
theorem nominal_timestep_and_streak_durations_witness :
    _infer_timestep_hours [5] = 1 ∧
    _infer_timestep_hours [16, 17, 16, 17] = specNominalTimestep [16, 17, 16, 17] ∧
    (∃ k : Nat, 0 < k ∧
      (Streak.mk "base" 1 16 16 false 1).duration_hours = (k : ℚ) *
        _infer_timestep_hours
          ((List.insertionSort (fun a b : StreakRow => rowLeB a b = true)
            [⟨16, "base", true, false⟩]).map (fun r => r.time_utc))) :=
  ⟨nominal_timestep_and_streak_durations.2.1 [5] (by with_unfolding_all decide),
   nominal_timestep_and_streak_durations.1 [16, 17, 16, 17],
   nominal_timestep_and_streak_durations.2.2.1 [⟨16, "base", true, false⟩]
     (Streak.mk "base" 1 16 16 false 1) (by with_unfolding_all decide)⟩

/-! ## Lemmas about the operational window -/

theorem applyOverrides_error_of_badOverride (rows : List LocalTime)
    (weekday_ok : List Bool) (minutes : List Nat) (tb : TimeBounds)
    (st et : HHMM) :
    ∀ (l : List (Int × WeeklyOverride)) (mask : List Bool),
      (∃ item ∈ l, overrideWindowBad st et item) →
      ∃ msg, applyOverrides rows weekday_ok minutes tb st et l mask = .error msg := by
  intro l
  induction l with
  | nil =>
    rintro mask ⟨item, hmem, _⟩
    exact absurd hmem (List.not_mem_nil item)
  | cons hd tl ih =>
    rintro mask ⟨item, hmem, hbad⟩
    obtain ⟨d, ov⟩ := hd
    by_cases h1 : d < 0 ∨ 6 < d
    · exact ⟨"weekly_overrides keys must be 0..6", by simp [applyOverrides, h1]⟩
    · by_cases h2 : (ov.start <|> tb.start) ≠ some "fixed_time" ∨
          (ov.stop <|> tb.stop) ≠ some "fixed_time"
      · exact ⟨"weekly_overrides supports only fixed_time -> fixed_time in this phase",
          by simp only [applyOverrides, if_neg h1, if_pos h2]⟩
      · by_cases h3 : (ov.end_time.getD et).hh * 60 + (ov.end_time.getD et).mm ≤
            (ov.start_time.getD st).hh * 60 + (ov.start_time.getD st).mm
        · refine ⟨"weekly_overrides end_time must be after start_time", ?_⟩
          simp only [applyOverrides, if_neg h1, if_neg h2, _parse_hhmm]
          rw [if_pos h3]
        · rcases List.mem_cons.mp hmem with heq | hmem2
          · rw [heq] at hbad
            exact absurd hbad (by simpa [overrideWindowBad] using h3)
          · obtain ⟨msg, hmsg⟩ := ih _ ⟨item, hmem2, hbad⟩
            refine ⟨msg, ?_⟩
            simp only [applyOverrides, if_neg h1, if_neg h2, _parse_hhmm]
            rw [if_neg h3]
            exact hmsg

theorem build_error_of_badOverride (rows : List LocalTime)
    (ow : OperationalWindow) (tb : TimeBounds) (st et : HHMM)
    (htb : ow.time_bounds = some tb)
    (hstart : tb.start = some "fixed_time") (hstop : tb.stop = some "fixed_time")
    (hst : tb.start_time = some st) (het : tb.end_time = some et)
    (hbad : ∃ item ∈ ow.weekly_overrides, overrideWindowBad st et item) :
    ∃ msg, build_operational_mask_fixed_time rows ow = .error msg := by
  by_cases hle : et.hh * 60 + et.mm ≤ st.hh * 60 + st.mm
  · refine ⟨"fixed_time window must have end_time after start_time (same-day window)", ?_⟩
    unfold build_operational_mask_fixed_time
    rw [htb]
    simp [hstart, hstop, hst, het, _parse_hhmm, hle]
  · have hne : ow.weekly_overrides.isEmpty = false := by
      obtain ⟨item, hmem, _⟩ := hbad
      cases howl : ow.weekly_overrides with
      | nil => rw [howl] at hmem; exact absurd hmem (List.not_mem_nil _)
      | cons a b => rfl
    obtain ⟨e, he⟩ := applyOverrides_error_of_badOverride rows _ _ tb st et
      ow.weekly_overrides _ hbad
    refine ⟨e, ?_⟩
    unfold build_operational_mask_fixed_time
    rw [htb]
    simp only [Option.getD_some, hstart, hstop, hst, het, _parse_hhmm, hne,
      ne_eq, not_true_eq_false, or_self, if_false]
    rw [if_neg hle]
    simp only [Bool.false_eq_true, if_false]
    rw [he]

/-- **C7.** With a resolved `fixed_time -> fixed_time` time-bounds pair,
`build_operational_mask_fixed_time` raises whenever the default window has
`end_minute ≤ start_minute` (with the error message naming the same-day
constraint), and raises for any weekly override whose resolved window ends
at or before its start: cross-midnight windows are hard errors, never
silently wrapped. -/
theorem cross_midnight_windows_rejected (rows : List LocalTime)
    (ow : OperationalWindow) (tb : TimeBounds) (st et : HHMM)
    (htb : ow.time_bounds = some tb)
    (hstart : tb.start = some "fixed_time") (hstop : tb.stop = some "fixed_time")
    (hst : tb.start_time = some st) (het : tb.end_time = some et) :
    (et.hh * 60 + et.mm ≤ st.hh * 60 + st.mm →
      build_operational_mask_fixed_time rows ow =
        .error "fixed_time window must have end_time after start_time (same-day window)") ∧
    ((∃ item ∈ ow.weekly_overrides, overrideWindowBad st et item) →
      ∃ msg, build_operational_mask_fixed_time rows ow = .error msg) := by
  constructor
  · intro hle
    unfold build_operational_mask_fixed_time
    rw [htb]
    simp [hstart, hstop, hst, het, _parse_hhmm, hle]
  · exact build_error_of_badOverride rows ow tb st et htb hstart hstop hst het

/-- Witness for C7: the `22:00 → 06:00` window from the spec is rejected
with the same-day error message, and a weekly override shortened to the
empty window `12:00 → 11:00` forces an error. -/
theorem cross_midnight_windows_rejected_witness :
    (build_operational_mask_fixed_time []
      { calendar_model := some "all_days"
        time_bounds := some
          { start := some "fixed_time", stop := some "fixed_time"
            start_time := some ⟨22, 0⟩, end_time := some ⟨6, 0⟩ } } =
      .error "fixed_time window must have end_time after start_time (same-day window)") ∧
    (∃ msg, build_operational_mask_fixed_time []
      { calendar_model := some "all_days"
        time_bounds := some
          { start := some "fixed_time", stop := some "fixed_time"
            start_time := some ⟨9, 0⟩, end_time := some ⟨17, 0⟩ }
        weekly_overrides :=
          [(4, { start_time := some ⟨12, 0⟩, end_time := some ⟨11, 0⟩ })] } =
      .error msg) :=
  ⟨(cross_midnight_windows_rejected [] _ _ ⟨22, 0⟩ ⟨6, 0⟩ rfl rfl rfl rfl rfl).1
      (by decide),
   (cross_midnight_windows_rejected [] _ _ ⟨9, 0⟩ ⟨17, 0⟩ rfl rfl rfl rfl rfl).2
      ⟨(4, { start_time := some ⟨12, 0⟩, end_time := some ⟨11, 0⟩ }),
        List.mem_singleton.mpr rfl, by simp only [overrideWindowBad]; decide⟩⟩

/-! ## Lemmas about the threshold evaluator -/

theorem passOne_eq_spec (mn mx v : Option ℚ) :
    passOne mn mx v = specParamPass mn mx v := by
  cases mn <;> cases mx <;> cases v <;>
    simp [passOne, specParamPass, cmpGe, cmpLe]

theorem paramOkCol_eq_spec (col : List (Option ℚ)) (mn mx : Option ℚ) :
    paramOkCol col mn mx = col.map (specParamPass mn mx) := by
  unfold paramOkCol
  exact List.map_congr_left (fun v _ => passOne_eq_spec mn mx v)

theorem buildParamOk_ok_eq (df : EvalFrame) (wt : PyVal) (scen : String) :
    ∀ (req : List String) (pok : List (String × List Bool)),
      buildParamOk df wt scen req = .ok pok →
      pok = req.map (fun p =>
        (p, paramOkCol ((lookupCol df.params p).getD [])
          (_bounds_for wt p scen).1 (_bounds_for wt p scen).2)) := by
  intro req
  induction req with
  | nil =>
    intro pok h
    simp only [buildParamOk, Except.ok.injEq] at h
    simp [← h]
  | cons p rest ih =>
    intro pok h
    simp only [buildParamOk] at h
    cases hl : lookupCol df.params p with
    | none => rw [hl] at h; exact Except.noConfusion h
    | some col =>
      rw [hl] at h
      cases hr : buildParamOk df wt scen rest with
      | error e => rw [hr] at h; exact Except.noConfusion h
      | ok tail =>
        rw [hr] at h
        rw [Except.ok.injEq] at h
        rw [← h, List.map_cons, ih tail hr]
        simp [hl]

theorem buildParamOk_ok_lookup (df : EvalFrame) (wt : PyVal) (scen : String) :
    ∀ (req : List String) (pok : List (String × List Bool)),
      buildParamOk df wt scen req = .ok pok →
      ∀ p ∈ req, ∃ col, lookupCol df.params p = some col := by
  intro req
  induction req with
  | nil => intro pok _ p hp; exact absurd hp (List.not_mem_nil p)
  | cons q rest ih =>
    intro pok h p hp
    simp only [buildParamOk] at h
    cases hl : lookupCol df.params q with
    | none => rw [hl] at h; exact Except.noConfusion h
    | some col =>
      rw [hl] at h
      cases hr : buildParamOk df wt scen rest with
      | error e => rw [hr] at h; exact Except.noConfusion h
      | ok tail =>
        rcases List.mem_cons.mp hp with heq | hmem
        · exact heq ▸ ⟨col, hl⟩
        · exact ih tail hr p hmem

theorem evaluate_thresholds_ok_inv (df : EvalFrame) (req : List String)
    (wt : PyVal) (scen : String) (ev : ScenarioEvaluation) (sm : EvaluationSummary)
    (h : evaluate_thresholds df req wt scen = .ok (ev, sm)) :
    ∃ pok, buildParamOk df wt scen req = .ok pok ∧
      ev.param_ok = pok ∧
      ev.is_workable =
        List.zipWith and df.is_operational (allOkCol pok df.is_operational.length) ∧
      ev.limiting_param = (if pok.isEmpty then none
        else some ((List.range df.is_operational.length).map
          (fun i => limitingRow req (failB pok i)))) ∧
      sm.workable_hours =
        (List.zipWith and df.is_operational
          (allOkCol pok df.is_operational.length)).count true ∧
      sm.operational_hours = df.is_operational.count true ∧
      sm.total_hours = df.is_operational.length := by
  unfold evaluate_thresholds at h
  cases hb : buildParamOk df wt scen req with
  | error e => rw [hb] at h; exact Except.noConfusion h
  | ok pok =>
    rw [hb] at h
    simp only [Except.ok.injEq, Prod.mk.injEq] at h
    obtain ⟨hev, hsm⟩ := h
    refine ⟨pok, rfl, ?_, ?_, ?_, ?_, ?_, ?_⟩ <;>
      first
        | (rw [← hev])
        | (rw [← hsm])

/-- **C3.** For every scenario, required parameter and row, the
per-parameter pass column computed by `evaluate_thresholds` equals the
spec's rule applied cellwise: `(min unset OR value ≥ min) AND (max unset OR
value ≤ max)`, bounds inclusive, a null value failing whenever a bound is
configured, and a parameter with no configured bounds passing on every row
including null ones. -/
theorem per_param_pass_rule (df : EvalFrame) (req : List String) (wt : PyVal)
    (scen : String) (ev : ScenarioEvaluation) (sm : EvaluationSummary)
    (hok : evaluate_thresholds df req wt scen = .ok (ev, sm)) :
    ev.param_ok = req.map (fun p =>
      (p, ((lookupCol df.params p).getD []).map
        (fun v => specParamPass (_bounds_for wt p scen).1 (_bounds_for wt p scen).2 v))) := by
  obtain ⟨pok, hbp, hpo, -, -, -, -, -⟩ := evaluate_thresholds_ok_inv df req wt scen ev sm hok
  rw [hpo, buildParamOk_ok_eq df wt scen req pok hbp]
  exact List.map_congr_left (fun p _ => by rw [paramOkCol_eq_spec])

/-- Witness for C3: one operational row with value exactly at the `min`
bound of a `{min: 0, max: 40}` temperature block passes. -/
theorem per_param_pass_rule_witness :
    (ScenarioEvaluation.mk "base" [true] [("temperature", [true])] (some [none])).param_ok =
      ["temperature"].map (fun p =>
        (p, ((lookupCol (EvalFrame.mk [true] [("temperature", [some 0])]).params p).getD []).map
          (fun v => specParamPass
            (_bounds_for (.dict [("base", .dict [("temperature",
              .dict [("min", .num 0), ("max", .num 40)])])]) p "base").1
            (_bounds_for (.dict [("base", .dict [("temperature",
              .dict [("min", .num 0), ("max", .num 40)])])]) p "base").2 v))) :=
  per_param_pass_rule (EvalFrame.mk [true] [("temperature", [some 0])]) ["temperature"]
    (.dict [("base", .dict [("temperature", .dict [("min", .num 0), ("max", .num 40)])])])
    "base" (ScenarioEvaluation.mk "base" [true] [("temperature", [true])] (some [none]))
    (EvaluationSummary.mk 1 1 1 100 100) (by with_unfolding_all decide)

/-! ## Lemmas about the limiting-parameter fold -/

theorem limitingRow_foldl_false (f : String → Bool) :
    ∀ (l : List String) (lim : Option String),
      (l.foldl (fun st p =>
        let lim2 := if st.1 && f p then some p else st.2
        (st.1 && lim2.isNone, lim2)) ((false, lim) : Bool × Option String)) =
      (false, lim) := by
  intro l
  induction l with
  | nil => intro lim; rfl
  | cons p rest ih =>
    intro lim
    rw [List.foldl_cons]
    show (rest.foldl (fun st p =>
        let lim2 := if st.1 && f p then some p else st.2
        (st.1 && lim2.isNone, lim2)) ((false, lim) : Bool × Option String)) = (false, lim)
    exact ih lim

theorem limitingRow_foldl_true (f : String → Bool) :
    ∀ (l : List String),
      ((l.foldl (fun st p =>
        let lim2 := if st.1 && f p then some p else st.2
        (st.1 && lim2.isNone, lim2)) ((true, none) : Bool × Option String)).2) =
      l.find? f := by
  intro l
  induction l with
  | nil => rfl
  | cons p rest ih =>
    rw [List.foldl_cons]
    cases hf : f p with
    | false =>
      show (rest.foldl (fun st p =>
          let lim2 := if st.1 && f p then some p else st.2
          (st.1 && lim2.isNone, lim2)) ((true, none) : Bool × Option String)).2 =
        List.find? f (p :: rest)
      rw [ih, List.find?_cons_of_neg _ (by simp [hf])]
    | true =>
      show (rest.foldl (fun st p =>
          let lim2 := if st.1 && f p then some p else st.2
          (st.1 && lim2.isNone, lim2)) ((false, some p) : Bool × Option String)).2 =
        List.find? f (p :: rest)
      rw [limitingRow_foldl_false f rest (some p), List.find?_cons_of_pos _ hf]

theorem limitingRow_eq (req : List String) (f : String → Bool) :
    limitingRow req f = if req.any f then req.find? f else none := by
  unfold limitingRow
  cases ha : req.any f with
  | false =>
    rw [limitingRow_foldl_false f req none]
    simp
  | true =>
    simp only [if_true]
    exact limitingRow_foldl_true f req

/-- **C4.** On a row where at least one required parameter fails,
the limiting attribution computed by `evaluate_thresholds` is the first
parameter, in `required_parameters` order, whose pass flag is false
(`List.find?` over the configured order); and on a loss row with no
identifiable parameter failure, the final `limiting_param` rewrite of
`classify_baseline` assigns the sentinel `"unknown"`. -/
theorem limiting_attribution_first_failing :
    (∀ (df : EvalFrame) (req : List String) (wt : PyVal) (scen : String)
        (ev : ScenarioEvaluation) (sm : EvaluationSummary)
        (L : List (Option String)) (i : Nat),
      evaluate_thresholds df req wt scen = .ok (ev, sm) →
      ev.limiting_param = some L →
      i < df.is_operational.length →
      req.any (failB ev.param_ok i) = true →
      L.getD i none = req.find? (failB ev.param_ok i)) ∧
    (∀ (loss : List Bool) (lim : List (Option String)) (i : Nat),
      i < loss.length → i < lim.length →
      loss.getD i false = true → lim.getD i none = none →
      (classifyLimitingFinal loss lim).getD i none = some LIMITING_PARAM_UNKNOWN) := by
  constructor
  · intro df req wt scen ev sm L i hok hL hi hany
    obtain ⟨pok, -, hpo, -, hlim, -, -, -⟩ :=
      evaluate_thresholds_ok_inv df req wt scen ev sm hok
    rw [hL] at hlim
    by_cases hemp : pok.isEmpty
    · rw [if_pos hemp] at hlim
      exact Option.noConfusion hlim
    · rw [if_neg hemp] at hlim
      have hLval : L = (List.range df.is_operational.length).map
          (fun j => limitingRow req (failB pok j)) := Option.some.inj hlim
      subst hLval
      rw [hpo] at hany
      rw [getD_map_range _ hi, limitingRow_eq, if_pos hany, hpo]
  · intro loss lim i hl hm hloss hlim
    unfold classifyLimitingFinal
    rw [getD_zipWith_lt _ hl hm none false none, hloss, hlim]
    rfl

/-- Witness for C4: both `temperature` and `wind_speed` fail on the single
row, and the attribution is `temperature`, the first in configured order;
a loss row whose evaluation-level attribution is null gets `"unknown"`. -/
theorem limiting_attribution_first_failing_witness :
    ([some "temperature"] : List (Option String)).getD 0 none =
      ["temperature", "wind_speed"].find?
        (failB [("temperature", [false]), ("wind_speed", [false])] 0) ∧
    (classifyLimitingFinal [true] [none]).getD 0 none = some LIMITING_PARAM_UNKNOWN :=
  ⟨limiting_attribution_first_failing.1
      (EvalFrame.mk [true] [("temperature", [some 10]), ("wind_speed", [some 20])])
      ["temperature", "wind_speed"]
      (.dict [("base", .dict [("temperature", .dict [("max", .num 0)]),
        ("wind_speed", .dict [("max", .num 5)])])])
      "base"
      (ScenarioEvaluation.mk "base" [false]
        [("temperature", [false]), ("wind_speed", [false])] (some [some "temperature"]))
      (EvaluationSummary.mk 1 1 0 0 0)
      [some "temperature"] 0
      (by with_unfolding_all decide) rfl (by decide) (by with_unfolding_all decide),
   limiting_attribution_first_failing.2 [true] [none] 0
      (by decide) (by decide) rfl rfl⟩

/-! ## Lemmas about the classifier -/

theorem lookupCol_map_eq {α : Type} (g : String → α) :
    ∀ (cs : List String) (key : String) (v : α),
      lookupCol (cs.map (fun c => (c, g c))) key = some v → v = g key := by
  intro cs
  induction cs with
  | nil => intro key v h; exact Option.noConfusion h
  | cons c rest ih =>
    intro key v h
    simp only [List.map_cons, lookupCol] at h
    by_cases hc : c = key
    · rw [if_pos hc] at h
      subst hc
      exact (Option.some.inj h).symm
    · rw [if_neg hc] at h
      exact ih key v h

theorem allOkCol_length (pok : List (String × List Bool)) (n : Nat)
    (h : ∀ pc ∈ pok, pc.2.length = n) : (allOkCol pok n).length = n := by
  suffices haux : ∀ (l : List (String × List Bool)) (acc : List Bool),
      acc.length = n → (∀ pc ∈ l, pc.2.length = n) →
      (l.foldl (fun acc pc => List.zipWith and acc pc.2) acc).length = n by
    exact haux pok (List.replicate n true) (List.length_replicate n true) h
  intro l
  induction l with
  | nil => intro acc ha _; exact ha
  | cons pc rest ih =>
    intro acc ha hcols
    simp only [List.foldl_cons]
    apply ih
    · rw [List.length_zipWith, ha, hcols pc (List.mem_cons_self _ _)]
      exact Nat.min_self n
    · intro x hx
      exact hcols x (List.mem_cons_of_mem _ hx)

theorem overrideMask_length (d : Int) (os oe : Nat) :
    ∀ (rows : List LocalTime) (woks : List Bool) (ms : List Nat) (olds : List Bool),
      woks.length = rows.length → ms.length = rows.length → olds.length = rows.length →
      (overrideMask d os oe rows woks ms olds).length = rows.length := by
  intro rows
  induction rows with
  | nil => intro woks ms olds _ _ _; rfl
  | cons r rs ih =>
    intro woks ms olds hw hm ho
    cases woks with
    | nil => simp at hw
    | cons w ws =>
      cases ms with
      | nil => simp at hm
      | cons m ms2 =>
        cases olds with
        | nil => simp at ho
        | cons o os2 =>
          simp only [overrideMask, List.length_cons] at *
          rw [ih ws ms2 os2 (by omega) (by omega) (by omega)]

theorem applyOverrides_ok_length (rows : List LocalTime) (woks : List Bool)
    (ms : List Nat) (tb : TimeBounds) (st et : HHMM)
    (hw : woks.length = rows.length) (hm : ms.length = rows.length) :
    ∀ (l : List (Int × WeeklyOverride)) (mask mask2 : List Bool),
      mask.length = rows.length →
      applyOverrides rows woks ms tb st et l mask = .ok mask2 →
      mask2.length = rows.length := by
  intro l
  induction l with
  | nil =>
    intro mask mask2 hlen h
    simp only [applyOverrides, Except.ok.injEq] at h
    rw [← h]
    exact hlen
  | cons hd tl ih =>
    intro mask mask2 hlen h
    obtain ⟨d, ov⟩ := hd
    simp only [applyOverrides] at h
    split at h
    · exact Except.noConfusion h
    · split at h
      · exact Except.noConfusion h
      · split at h
        · exact Except.noConfusion h
        · exact ih _ mask2
            (overrideMask_length _ _ _ rows woks ms mask hw hm hlen) h

theorem build_mask_length (rows : List LocalTime) (ow : OperationalWindow)
    (mask : List Bool) (reason : String)
    (h : build_operational_mask_fixed_time rows ow = .ok (mask, reason)) :
    mask.length = rows.length := by
  unfold build_operational_mask_fixed_time at h
  simp only [] at h
  repeat'
    first
    | exact Except.noConfusion h
    | split at h
  all_goals
    (rw [Except.ok.injEq, Prod.mk.injEq] at h
     obtain ⟨hm, -⟩ := h
     rw [← hm])
  all_goals
    first
    | (simp only [List.length_zipWith, List.length_map]
       exact Nat.min_self _)
    | (rename_i mask2 happ
       exact applyOverrides_ok_length rows _ _ _ _ _
        (List.length_map _ _) (List.length_map _ _) _ _ _
        (by simp only [List.length_zipWith, List.length_map]
            exact Nat.min_self _) happ)

theorem classify_baseline_ok_inv (truth : TruthTable) (cfg : Config)
    (scenario_id : String) (res : ClassificationResult)
    (h : classify_baseline truth cfg scenario_id = .ok res) :
    ∃ op reason ev sm,
      build_operational_mask_fixed_time (truth.rows.map (fun r => r.time_local))
        cfg.operational_window = .ok (op, reason) ∧
      evaluate_thresholds (toEvalFrame truth op) cfg.required_parameters
        cfg.weather_thresholds scenario_id = .ok (ev, sm) ∧
      res.classified = (List.range truth.rows.length).map (fun i =>
        { scenario_id := scenario_id
          operational_flag := op.getD i false
          workable_flag := (List.zipWith and ev.is_workable op).getD i false
          loss_flag := (List.zipWith (fun o w => o && !w) op
            (List.zipWith and ev.is_workable op)).getD i false
          limiting_param := (classifyLimitingFinal
            (List.zipWith (fun o w => o && !w) op
              (List.zipWith and ev.is_workable op))
            (match ev.limiting_param with
             | none => List.replicate op.length (none : Option String)
             | some l => l)).getD i none }) := by
  unfold classify_baseline at h
  split at h
  · exact Except.noConfusion h
  · split at h
    · exact Except.noConfusion h
    · cases hb : build_operational_mask_fixed_time
          (truth.rows.map (fun r => r.time_local)) cfg.operational_window with
      | error e => rw [hb] at h; exact Except.noConfusion h
      | ok pr =>
        obtain ⟨op, reason⟩ := pr
        rw [hb] at h
        simp only [] at h
        cases he : evaluate_thresholds (toEvalFrame truth op)
            cfg.required_parameters cfg.weather_thresholds scenario_id with
        | error e => rw [he] at h; exact Except.noConfusion h
        | ok pr2 =>
          obtain ⟨ev, sm⟩ := pr2
          rw [he] at h
          simp only [] at h
          rw [Except.ok.injEq] at h
          exact ⟨op, reason, ev, sm, rfl, he, by rw [← h]⟩

/-- **C2.** For every row of a successful `classify_baseline` run:
`workable_flag` implies `operational_flag`; `loss_flag` equals
`operational_flag AND NOT workable_flag`; and `limiting_param` is non-null
iff `loss_flag` is true. -/
theorem classified_row_invariants (truth : TruthTable) (cfg : Config)
    (scenario_id : String) (res : ClassificationResult)
    (hok : classify_baseline truth cfg scenario_id = .ok res) :
    ∀ row ∈ res.classified,
      (row.workable_flag = true → row.operational_flag = true) ∧
      row.loss_flag = (row.operational_flag && !row.workable_flag) ∧
      (row.limiting_param.isSome = true ↔ row.loss_flag = true) := by
  obtain ⟨op, reason, ev, sm, hb, he, hcls⟩ :=
    classify_baseline_ok_inv truth cfg scenario_id res hok
  have hopl : op.length = truth.rows.length := by
    have := build_mask_length _ _ _ _ hb
    simpa using this
  obtain ⟨pok, hbp, hpo, hw, hlim, -, -, -⟩ :=
    evaluate_thresholds_ok_inv _ _ _ _ _ _ he
  have hframe : (toEvalFrame truth op).is_operational = op := rfl
  rw [hframe] at hw hlim
  have hcols : ∀ pc ∈ pok, pc.2.length = op.length := by
    have hshape := buildParamOk_ok_eq _ _ _ _ _ hbp
    have hlook := buildParamOk_ok_lookup _ _ _ _ _ hbp
    rw [hshape]
    intro pc hpc
    rw [List.mem_map] at hpc
    obtain ⟨p, hp, hpc⟩ := hpc
    obtain ⟨col, hcol⟩ := hlook p hp
    subst hpc
    simp only [hcol, Option.getD_some]
    have hcolv : col = colOf truth p := by
      apply lookupCol_map_eq (colOf truth) truth.columns p col
      simpa [toEvalFrame] using hcol
    rw [hcolv]
    simp only [paramOkCol, colOf, List.length_map]
    exact hopl.symm
  have hall : (allOkCol pok op.length).length = op.length :=
    allOkCol_length pok op.length hcols
  have hwl : ev.is_workable.length = op.length := by
    rw [hw, List.length_zipWith, hall]
    exact Nat.min_self _
  have hworkl : (List.zipWith and ev.is_workable op).length = op.length := by
    rw [List.length_zipWith, hwl]
    exact Nat.min_self _
  have hlossl : (List.zipWith (fun o w => o && !w) op
      (List.zipWith and ev.is_workable op)).length = op.length := by
    rw [List.length_zipWith, hworkl]
    exact Nat.min_self _
  have hlimbl : (match ev.limiting_param with
      | none => List.replicate op.length (none : Option String)
      | some l => l).length = op.length := by
    cases helim : ev.limiting_param with
    | none => simp
    | some l =>
      rw [helim] at hlim
      by_cases hemp : pok.isEmpty
      · rw [if_pos hemp] at hlim
        exact Option.noConfusion hlim
      · rw [if_neg hemp] at hlim
        have : l = (List.range op.length).map (fun i => limitingRow
            cfg.required_parameters (failB pok i)) := Option.some.inj hlim
        simp [this]
  intro row hrow
  rw [hcls, List.mem_map] at hrow
  obtain ⟨i, hi, hrow⟩ := hrow
  rw [List.mem_range] at hi
  have hiop : i < op.length := by omega
  subst hrow
  refine ⟨?_, ?_, ?_⟩
  · intro hwt
    exact (getD_zipWith_and_true hwt).2
  · show (List.zipWith (fun o w => o && !w) op
        (List.zipWith and ev.is_workable op)).getD i false =
      (op.getD i false && !((List.zipWith and ev.is_workable op).getD i false))
    rw [getD_zipWith_lt (fun o w => o && !w) hiop (by omega) false false false]
  · show ((classifyLimitingFinal
        (List.zipWith (fun o w => o && !w) op (List.zipWith and ev.is_workable op))
        (match ev.limiting_param with
         | none => List.replicate op.length (none : Option String)
         | some l => l)).getD i none).isSome = true ↔
      (List.zipWith (fun o w => o && !w) op
        (List.zipWith and ev.is_workable op)).getD i false = true
    unfold classifyLimitingFinal
    rw [getD_zipWith_lt _ (by omega) (by omega) none false none]
    cases hlv : (List.zipWith (fun o w => o && !w) op
        (List.zipWith and ev.is_workable op)).getD i false <;> simp

/-- Witness for C2: a single operational hour whose temperature violates
the `base` bounds, classified as a loss hour attributed to `temperature`. -/
theorem classified_row_invariants_witness :
    ((ClassifiedRow.mk "base" true false true (some "temperature")).workable_flag = true →
      (ClassifiedRow.mk "base" true false true (some "temperature")).operational_flag = true) ∧
    (ClassifiedRow.mk "base" true false true (some "temperature")).loss_flag =
      ((ClassifiedRow.mk "base" true false true (some "temperature")).operational_flag &&
        !(ClassifiedRow.mk "base" true false true (some "temperature")).workable_flag) ∧
    ((ClassifiedRow.mk "base" true false true
        (some "temperature")).limiting_param.isSome = true ↔
      (ClassifiedRow.mk "base" true false true (some "temperature")).loss_flag = true) :=
  classified_row_invariants
    (TruthTable.mk ["time_utc", "time_local", "temperature"]
      [TruthRow.mk 0 (LocalTime.mk 0 10 0) [("temperature", some 50)]])
    (Config.mk
      { calendar_model := some "all_days"
        time_bounds := some
          { start := some "fixed_time", stop := some "fixed_time"
            start_time := some ⟨9, 0⟩, end_time := some ⟨17, 0⟩ } }
      ["temperature"]
      (.dict [("base", .dict [("temperature", .dict [("min", .num 0), ("max", .num 40)])])]))
    "base"
    (ClassificationResult.mk "base"
      [ClassifiedRow.mk "base" true false true (some "temperature")]
      "fixed_time" (EvaluationSummary.mk 1 1 0 0 0))
    (by with_unfolding_all decide)
    (ClassifiedRow.mk "base" true false true (some "temperature"))
    (by decide)

/-! ## The streak boundary rule -/

theorem boundaryFlag_eq_claim (step : ℚ) (prev cur : StreakRow) :
    boundaryFlag step prev cur =
      ((cur.scenario_id != prev.scenario_id) ||
       ((cur.scenario_id == prev.scenario_id) &&
         (cur.workable_flag != prev.workable_flag)) ||
       ((cur.scenario_id == prev.scenario_id) &&
         decide (cur.time_utc - prev.time_utc > 3 / 2 * step))) := by
  unfold boundaryFlag
  cases hs : cur.scenario_id == prev.scenario_id <;> simp [bne, hs]

theorem boundariesAux_getD (step : ℚ) :
    ∀ (l : List StreakRow) (prev : StreakRow) (i : Nat) (hi : i < l.length),
      (boundariesAux step prev l).getD i false =
        boundaryFlag step (if _h0 : i = 0 then prev else l[i - 1]) l[i] := by
  intro l
  induction l with
  | nil => intro prev i hi; simp at hi
  | cons r rest ih =>
    intro prev i hi
    cases i with
    | zero => simp [boundariesAux]
    | succ i2 =>
      have hi2 : i2 < rest.length := by simpa using hi
      simp only [boundariesAux, List.getD_cons_succ]
      rw [ih r i2 hi2]
      congr 1
      · rw [dif_neg (Nat.succ_ne_zero i2)]
        cases i2 with
        | zero => simp
        | succ i3 =>
          rw [dif_neg (Nat.succ_ne_zero i3)]
          simp

/-- **C6.** After sorting by (scenario, timestamp), a non-initial row
starts a new streak exactly when the scenario identifier changes from the
preceding row, OR the workable value differs from the preceding row within
the same scenario, OR (within the same scenario) the time gap from the
preceding row exceeds `1.5 ×` the nominal step; the flags, OR-combined and
accumulated by `cumsum`, give a monotonically non-decreasing streak id. -/
theorem streak_boundary_rule :
    (∀ (step : ℚ) (rows : List StreakRow) (i : Nat) (hi : i + 1 < rows.length),
      (boundaries step rows).getD (i + 1) false =
        ((rows[i + 1].scenario_id != rows[i].scenario_id) ||
         ((rows[i + 1].scenario_id == rows[i].scenario_id) &&
           (rows[i + 1].workable_flag != rows[i].workable_flag)) ||
         ((rows[i + 1].scenario_id == rows[i].scenario_id) &&
           decide (rows[i + 1].time_utc - rows[i].time_utc > 3 / 2 * step)))) ∧
    (∀ (step : ℚ) (rows : List StreakRow) (i j : Nat), i ≤ j → j < rows.length →
      (cumsumBool (boundaries step rows) 0).getD i 0 ≤
        (cumsumBool (boundaries step rows) 0).getD j 0) := by
  constructor
  · intro step rows i hi
    cases rows with
    | nil => simp at hi
    | cons r rest =>
      have hi2 : i < rest.length := by simpa using hi
      simp only [boundaries, List.getD_cons_succ]
      rw [boundariesAux_getD step rest r i hi2, ← boundaryFlag_eq_claim]
      congr 1
      cases i with
      | zero => simp
      | succ i3 =>
        rw [dif_neg (Nat.succ_ne_zero i3)]
        simp
  · intro step rows i j hij hj
    exact cumsumBool_monotone (boundaries step rows) 0 i j hij
      (by rw [boundaries_length]; exact hj)

/-- Witness for C6: two same-scenario rows one nominal step apart do not
begin a new streak at the second row, and the streak ids are
non-decreasing. -/
theorem streak_boundary_rule_witness :
    ((boundaries 1 [⟨16, "base", true, false⟩, ⟨17, "base", true, false⟩]).getD 1 false
      = false) ∧
    ((cumsumBool (boundaries 1
        [⟨16, "base", true, false⟩, ⟨17, "base", true, false⟩]) 0).getD 0 0 ≤
      (cumsumBool (boundaries 1
        [⟨16, "base", true, false⟩, ⟨17, "base", true, false⟩]) 0).getD 1 0) := by
  constructor
  · rw [streak_boundary_rule.1 1
      [⟨16, "base", true, false⟩, ⟨17, "base", true, false⟩] 0 (by decide)]
    with_unfolding_all decide
  · exact streak_boundary_rule.2 1
      [⟨16, "base", true, false⟩, ⟨17, "base", true, false⟩] 0 1 (by decide) (by decide)

/-! ## Scenario monotonicity -/

theorem lt_length_of_getD_true {l : List Bool} {i : Nat}
    (h : l.getD i false = true) : i < l.length := by
  by_contra hlt
  rw [List.getD_eq_getElem?_getD, List.getElem?_eq_none (by omega)] at h
  simp at h

theorem getD_zipWith_and_true_of {a b : List Bool} {i : Nat}
    (ha : a.getD i false = true) (hb : b.getD i false = true) :
    (List.zipWith and a b).getD i false = true := by
  rw [getD_zipWith_lt and (lt_length_of_getD_true ha) (lt_length_of_getD_true hb)
    false false false, ha, hb]
  rfl

theorem passOne_mono (mnL mxL mnS mxS : Option ℚ)
    (h : boundsLooser (mnL, mxL) (mnS, mxS)) (v : Option ℚ)
    (hp : passOne mnS mxS v = true) : passOne mnL mxL v = true := by
  obtain ⟨h1, h2⟩ := h
  rw [passOne_eq_spec] at hp
  rw [passOne_eq_spec]
  unfold specParamPass at hp ⊢
  rw [Bool.and_eq_true] at hp
  obtain ⟨hmin, hmax⟩ := hp
  rw [Bool.and_eq_true]
  constructor
  · rcases h1 with hnone | ⟨a, b, ha, hb, hab⟩
    · simp only at hnone
      rw [hnone]
    · simp only at ha hb
      rw [hb] at hmin
      rw [ha]
      cases v with
      | none => simp at hmin
      | some x =>
        rw [decide_eq_true_eq] at hmin
        rw [decide_eq_true_eq]
        exact le_trans hab hmin
  · rcases h2 with hnone | ⟨a, b, ha, hb, hba⟩
    · simp only at hnone
      rw [hnone]
    · simp only at ha hb
      rw [hb] at hmax
      rw [ha]
      cases v with
      | none => simp at hmax
      | some x =>
        rw [decide_eq_true_eq] at hmax
        rw [decide_eq_true_eq]
        exact le_trans hmax hba

theorem paramOkCol_pointwise_mono (col : List (Option ℚ))
    (bL bS : Option ℚ × Option ℚ) (h : boundsLooser bL bS) (j : Nat)
    (hj : (paramOkCol col bS.1 bS.2).getD j false = true) :
    (paramOkCol col bL.1 bL.2).getD j false = true := by
  have hjl : j < col.length := by
    have := lt_length_of_getD_true hj
    simpa [paramOkCol] using this
  unfold paramOkCol at hj ⊢
  rw [List.getD_eq_getElem?_getD, List.getElem?_map,
    List.getElem?_eq_getElem hjl] at hj ⊢
  simp only [Option.map_some', Option.getD_some] at hj ⊢
  exact passOne_mono bL.1 bL.2 bS.1 bS.2 h (col[j]) hj

theorem allOk_foldl_pointwise_mono (req : List String) (gS gL : String → List Bool)
    (himp : ∀ p ∈ req, ∀ j, (gS p).getD j false = true → (gL p).getD j false = true) :
    ∀ (accS accL : List Bool),
      (∀ j, accS.getD j false = true → accL.getD j false = true) →
      ∀ i, (req.foldl (fun acc p => List.zipWith and acc (gS p)) accS).getD i false = true →
        (req.foldl (fun acc p => List.zipWith and acc (gL p)) accL).getD i false = true := by
  induction req with
  | nil => intro accS accL hacc i h; exact hacc i h
  | cons p rest ih =>
    intro accS accL hacc i h
    simp only [List.foldl_cons] at h ⊢
    refine ih (fun q hq => himp q (List.mem_cons_of_mem _ hq)) _ _ ?_ i h
    intro j hj
    obtain ⟨h1, h2⟩ := getD_zipWith_and_true hj
    exact getD_zipWith_and_true_of (hacc j h1) (himp p (List.mem_cons_self _ _) j h2)

/-- **C8.** For two scenarios evaluated over the same frame (same weather
table and operational column), if for every required parameter the looser
scenario's bounds are at least as permissive — min no larger or unset, max
no smaller or unset — then every row workable under the stricter scenario
is workable under the looser one, and the workable-hour counts satisfy
stricter ≤ looser. -/
theorem scenario_monotonicity (df : EvalFrame) (req : List String) (wt : PyVal)
    (scenS scenL : String) (evS evL : ScenarioEvaluation)
    (smS smL : EvaluationSummary)
    (hS : evaluate_thresholds df req wt scenS = .ok (evS, smS))
    (hL : evaluate_thresholds df req wt scenL = .ok (evL, smL))
    (hloose : ∀ p ∈ req, boundsLooser (_bounds_for wt p scenL) (_bounds_for wt p scenS)) :
    (∀ i, evS.is_workable.getD i false = true → evL.is_workable.getD i false = true) ∧
    smS.workable_hours ≤ smL.workable_hours := by
  obtain ⟨pokS, hbS, hpoS, hwS, -, hwhS, -, -⟩ := evaluate_thresholds_ok_inv _ _ _ _ _ _ hS
  obtain ⟨pokL, hbL, hpoL, hwL, -, hwhL, -, -⟩ := evaluate_thresholds_ok_inv _ _ _ _ _ _ hL
  have hshapeS := buildParamOk_ok_eq _ _ _ _ _ hbS
  have hshapeL := buildParamOk_ok_eq _ _ _ _ _ hbL
  have hmain : ∀ i, evS.is_workable.getD i false = true →
      evL.is_workable.getD i false = true := by
    intro i h
    rw [hwS] at h
    rw [hwL]
    obtain ⟨hop, hall⟩ := getD_zipWith_and_true h
    refine getD_zipWith_and_true_of hop ?_
    unfold allOkCol at hall ⊢
    rw [hshapeS, List.foldl_map] at hall
    rw [hshapeL, List.foldl_map]
    refine allOk_foldl_pointwise_mono req
      (fun p => (fun p2 => ((p2 : String), paramOkCol ((lookupCol df.params p2).getD [])
        (_bounds_for wt p2 scenS).1 (_bounds_for wt p2 scenS).2)) p |>.2)
      (fun p => (fun p2 => ((p2 : String), paramOkCol ((lookupCol df.params p2).getD [])
        (_bounds_for wt p2 scenL).1 (_bounds_for wt p2 scenL).2)) p |>.2)
      ?_ _ _ (fun j hj => hj) i hall
    intro p hp j hj
    exact paramOkCol_pointwise_mono ((lookupCol df.params p).getD [])
      (_bounds_for wt p scenL) (_bounds_for wt p scenS) (hloose p hp) j hj
  refine ⟨hmain, ?_⟩
  have hcS : smS.workable_hours = evS.is_workable.count true := by rw [hwhS, hwS]
  have hcL : smL.workable_hours = evL.is_workable.count true := by rw [hwhL, hwL]
  rw [hcS, hcL]
  exact count_true_le_of_pointwise _ _ hmain

/-- Witness for C8: a stricter `conservative` scenario (`max 5`) and a
looser `base` scenario (`max 10`) over one operational row with value 7:
blocked under the stricter bounds, workable under the looser ones, with
workable-hour counts 0 ≤ 1. -/
theorem scenario_monotonicity_witness :
    (∀ i, (ScenarioEvaluation.mk "conservative" [false]
        [("temperature", [false])] (some [some "temperature"])).is_workable.getD i false = true →
      (ScenarioEvaluation.mk "base" [true]
        [("temperature", [true])] (some [none])).is_workable.getD i false = true) ∧
    (EvaluationSummary.mk 1 1 0 0 0).workable_hours ≤
      (EvaluationSummary.mk 1 1 1 100 100).workable_hours :=
  scenario_monotonicity
    (EvalFrame.mk [true] [("temperature", [some 7])]) ["temperature"]
    (.dict [("conservative", .dict [("temperature", .dict [("max", .num 5)])]),
            ("base", .dict [("temperature", .dict [("max", .num 10)])])])
    "conservative" "base"
    (ScenarioEvaluation.mk "conservative" [false] [("temperature", [false])]
      (some [some "temperature"]))
    (ScenarioEvaluation.mk "base" [true] [("temperature", [true])] (some [none]))
    (EvaluationSummary.mk 1 1 0 0 0) (EvaluationSummary.mk 1 1 1 100 100)
    (by with_unfolding_all decide) (by with_unfolding_all decide)
    (by
      intro p hp
      simp only [List.mem_singleton] at hp
      subst hp
      constructor
      · left
        with_unfolding_all decide
      · right
        exact ⟨10, 5, by with_unfolding_all decide, by with_unfolding_all decide,
          by with_unfolding_all decide⟩)

end OptiClimate
